import Mathlib

/-!
# Shallow embedding of `casim/casim.py` (cancer_sim)

This file embeds the core of the tumour-growth simulator in
`src/casim/casim.py` and proves/refutes the specification claims about it.

Modelling conventions:
* Python's two global pseudo-random generators are modelled as two explicit
  streams carried in a `PyRandom` value: the `random`-module generator
  (seeded once by `prng.seed(seed)` in `run`, lines 377-378) is the stream
  `q : Nat -> Rat`, and numpy's global `RandomState` (never seeded by the
  run, used only by `np.random.poisson` in `increase_mut_number`, line 500)
  is the stream `np : Nat -> Nat`.  A draw consumes the head of the
  respective stream and shifts it.  `random.random()` returns the head
  rational; index draws (`choice`, `shuffle`, `sample`, all of which call
  `_randbelow(n)` in CPython) are modelled by mapping the head rational
  `v` to `min (floor (v*n)) (n-1)`; a `np.random.poisson` outcome is the
  head natural of the numpy stream.
* The scipy `lil_matrix` grid is modelled by an association list over
  normalised coordinates together with the matrix size.  Indexing follows
  scipy/numpy semantics: a negative index is wrapped once by adding the
  size, and an index that is still out of `[0, size)` raises `IndexError`.
* Fallible Python code (exceptions) is modelled in `Except String`.
* The unbounded `while` loop of `mutation_reconstruction` (line 604) is
  modelled with explicit fuel; fuel exhaustion is the embedding of
  non-termination of the source loop.
* Only the *authoritative* (second) definition of `tumourGrowth`
  (lines 810-869) is embedded; the first definition (lines 616-680) is dead
  code, silently superseded by the later one of the same name.
-/

deriving instance DecidableEq for Except

namespace Casim

/-- The ambient pseudo-random state of the Python process: the (seeded)
`random`-module stream and the (unseeded) numpy global stream. -/
structure PyRandom where
  q : Nat → ℚ
  np : Nat → Nat

/-- Rational multiplication written through `mkRat` so that it evaluates
by kernel reduction (`Rat.mul` is irreducible); `qmul_eq_mul` below proves
it is ordinary multiplication on `ℚ`. -/
def qmul (a b : ℚ) : ℚ := mkRat (a.num * b.num) (a.den * b.den)

/-- The value of the next `random.random()` draw. -/
def qHead (r : PyRandom) : ℚ := r.q 0

/-- The ambient random state after one `random`-module draw. -/
def qTail (r : PyRandom) : PyRandom := ⟨fun n => r.q (n + 1), r.np⟩

/-- The value of the next `np.random.poisson` draw (the drawn value
abstracts the Poisson sampler's outcome). -/
def npHead (r : PyRandom) : Nat := r.np 0

/-- The ambient random state after one numpy draw. -/
def npTail (r : PyRandom) : PyRandom := ⟨r.q, fun n => r.np (n + 1)⟩

/-- Map a unit-interval draw to an index below `n` (the model of CPython's
`_randbelow(n)` used by `choice`, `shuffle` and `sample`). -/
def choiceIdx (n : Nat) (v : ℚ) : Nat :=
  min (Int.toNat (Rat.floor (qmul v (mkRat n 1)))) (n - 1)

/-- Model of `random.choice(seq)`: raises `IndexError` on an empty sequence,
otherwise returns `seq[_randbelow(len(seq))]`. -/
def pyChoice {α : Type} (l : List α) (r : PyRandom) : Except String (α × PyRandom) :=
  match l with
  | [] => .error "IndexError: list index out of range"
  | a :: t =>
    .ok ((a :: t).getD (choiceIdx (a :: t).length (qHead r)) a, qTail r)

/-- Swap two positions of a list (helper for the Fisher-Yates shuffle). -/
def lswap {α : Type} (l : List α) (i j : Nat) : List α :=
  match l.get? i, l.get? j with
  | some a, some b => (l.set i b).set j a
  | _, _ => l

/-- The descending Fisher-Yates loop of `random.shuffle`:
`for i in reversed(range(1, len(x))): j = _randbelow(i+1); swap x[i] x[j]`.
The argument `i` is the current index. -/
def shuffleAux {α : Type} (l : List α) (i : Nat) (r : PyRandom) : List α × PyRandom :=
  match i with
  | 0 => (l, r)
  | k + 1 =>
    shuffleAux (lswap l (k + 1) (choiceIdx (k + 2) (qHead r))) k (qTail r)

/-- Model of `random.shuffle(x)` (line 827). -/
def pyShuffle {α : Type} (l : List α) (r : PyRandom) : List α × PyRandom :=
  shuffleAux l (l.length - 1) r

/-- Draw `k` elements without replacement (the observable behaviour of
`random.sample(pool, k)`): repeatedly pick a uniformly random remaining
element and remove it. -/
def sampleAux {α : Type} (l : List α) (k : Nat) (r : PyRandom) : List α × PyRandom :=
  match k with
  | 0 => ([], r)
  | k' + 1 =>
    match l with
    | [] => ([], r)
    | a :: t =>
      let idx := choiceIdx (a :: t).length (qHead r)
      let rest := sampleAux ((a :: t).eraseIdx idx) k' (qTail r)
      ((a :: t).getD idx a :: rest.1, rest.2)

/-- Model of `random.sample(pool, k)`: raises `ValueError` when `k` exceeds the
population size. -/
def pySample {α : Type} (l : List α) (k : Nat) (r : PyRandom) :
    Except String (List α × PyRandom) :=
  if k > l.length then .error "ValueError: sample larger than population"
  else .ok (sampleAux l k r)

/-- Python's positional-argument arity check on a call: calling a function
of `expected` parameters with `given` arguments raises `TypeError` before
the body runs. -/
def callWithArity {α : Type} (expected given : Nat) (body : Except String α) :
    Except String α :=
  if given = expected then body
  else .error "TypeError: mutation_reconstruction() takes 1 positional argument but 2 were given"

/-! ## The spatial grid (scipy `lil_matrix`) -/

/-- A lattice coordinate as used by the Python code: a pair of (possibly
negative) integers. -/
abbrev Coord := Int × Int

/-- scipy/numpy index normalisation: a negative index is wrapped once by
adding the dimension size; an index still outside `[0, size)` raises
`IndexError`. -/
def normIdx (size : Nat) (i : Int) : Except String Nat :=
  let i' := if i < 0 then i + size else i
  if 0 ≤ i' ∧ i' < size then .ok i'.toNat
  else .error "IndexError: index out of bounds"

/-- The sparse matrix `self.__mtx`: matrix size plus an association list
from normalised coordinates to stored values; absent keys read as 0. -/
structure Grid where
  size : Nat
  entries : List ((Nat × Nat) × Nat)
deriving DecidableEq

/-- Model of the read `self.__mtx[cell]`. -/
def mtxGet (g : Grid) (c : Coord) : Except String Nat :=
  match normIdx g.size c.1 with
  | .error e => .error e
  | .ok i =>
    match normIdx g.size c.2 with
    | .error e => .error e
    | .ok j =>
      .ok (((g.entries.find? (fun e => decide (e.1 = (i, j)))).map (·.2)).getD 0)

/-- Model of the write `self.__mtx[cell] = v`. -/
def mtxSet (g : Grid) (c : Coord) (v : Nat) : Except String Grid :=
  match normIdx g.size c.1 with
  | .error e => .error e
  | .ok i =>
    match normIdx g.size c.2 with
    | .error e => .error e
    | .ok j =>
      .ok ⟨g.size, ((i, j), v) :: g.entries.filter (fun e => ! decide (e.1 = (i, j)))⟩

/-! ## Parameters and simulation state -/

/-- Single- or double-tumour mode (`tumour_multiplicity`). -/
inductive TumourMult where
  | single
  | double
deriving DecidableEq

/-- The validated parameter bundle (`CancerSimulatorParameters`).
Probabilities are modelled as rationals.  Validation (`check_set_number`)
guarantees each probability lies in `[0,1]`; those facts appear as explicit
hypotheses where theorems need them. -/
structure CancerSimulatorParameters where
  matrix_size : Nat
  number_of_generations : Nat
  division_probability : ℚ
  advantageous_division_probability : ℚ
  death_probability : ℚ
  fitness_advantage_death_probability : ℚ
  mutation_rate : ℚ
  advantageous_mutation_probability : ℚ
  mutations_per_division : Nat
  time_of_advantageous_mutation : Nat
  number_of_clonal : Nat
  tumour_multiplicity : TumourMult

/-- The mutable simulation state of a `CancerSimulator` instance:
the grid, the mutation ledger `self.__mut_container` (list of
`(parent_id, own_id)` pairs), the live-cell pool, the beneficial-mutation
list and the population-history list. -/
structure SimState where
  mtx : Grid
  mut_container : List (Nat × Nat)
  pool : List Coord
  benefitial_mutation : List Nat
  growth_plot_data : List Nat
deriving DecidableEq

/-- The state set up by `run` (lines 342-350) in single-tumour mode:
one seed cell at `(int(m*0.5), int(m*0.5))` with clone-id 1 and ledger
`[(0,0),(0,1)]`.  (`int(m*0.5)` is exactly `m / 2`: multiplication by the
dyadic 0.5 is exact in floating point.) -/
def initialStateSingle (m : Nat) : SimState :=
  { mtx := ⟨m, [((m / 2, m / 2), 1)]⟩
    mut_container := [(0, 0), (0, 1)]
    pool := [((m / 2 : Nat), (m / 2 : Nat))]
    benefitial_mutation := []
    growth_plot_data := [] }

/-- The state set up by `run` (lines 353-364) in double-tumour mode for
`matrix_size = 10`: seed cells at `(int(10*0.45), int(10*0.5)) = (4,5)`
and `(int(10*0.65), int(10*0.51)) = (6,5)` (floating-point products
`10*0.45 = 4.5`, `10*0.65 = 6.5`, `10*0.51 = 5.1000...` truncate to
4, 6 and 5), clone-ids 1 and 2, ledger `[(0,0),(0,1),(0,2)]`. -/
def initialStateDouble10 : SimState :=
  { mtx := ⟨10, [((4, 5), 1), ((6, 5), 2)]⟩
    mut_container := [(0, 0), (0, 1), (0, 2)]
    pool := [((4 : Int), (5 : Int)), ((6 : Int), (5 : Int))]
    benefitial_mutation := []
    growth_plot_data := [] }

/-! ## Core operations -/

/-- The raw Moore-neighbourhood list of `neighbours` (lines 690-698),
in source order, with no bounds check. -/
def neighboursList (cell : Coord) : List Coord :=
  [(cell.1 - 1, cell.2 + 1),
   (cell.1    , cell.2 + 1),
   (cell.1 + 1, cell.2 + 1),
   (cell.1 - 1, cell.2    ),
   (cell.1 + 1, cell.2    ),
   (cell.1 - 1, cell.2 - 1),
   (cell.1    , cell.2 - 1),
   (cell.1 + 1, cell.2 - 1)]

/-- The filter `[y for y in neighboursList if self.__mtx[y]==0]` with
left-to-right evaluation of the (fallible) grid lookups. -/
def freeFilter (g : Grid) : List Coord → Except String (List Coord)
  | [] => .ok []
  | y :: rest =>
    match mtxGet g y with
    | .error e => .error e
    | .ok v =>
      match freeFilter g rest with
      | .error e => .error e
      | .ok tail => .ok (if v = 0 then y :: tail else tail)

/-- Embedding of `neighbours` (lines 682-701): the raw neighbour coordinates whose grid
value reads 0.  Coordinates are returned unnormalised, exactly as built. -/
def neighbours (g : Grid) (cell : Coord) : Except String (List Coord) :=
  freeFilter g (neighboursList cell)

/-- Embedding of `terminate_cell` (lines 510-522): `pool.remove(cell)` (first
occurrence; `ValueError` if absent) then `self.__mtx[cell] = 0`. -/
def terminate_cell (cell : Coord) (st : SimState) : Except String SimState :=
  if cell ∈ st.pool then
    match mtxSet st.mtx cell 0 with
    | .error e => .error e
    | .ok mtx' => .ok { st with pool := st.pool.erase cell, mtx := mtx' }
  else .error "ValueError: list.remove(x): x not in list"

/-- The `for i in prng.sample(...): self.terminate_cell(i, step)` loop of
`deathStep`. -/
def terminateLoop : List Coord → SimState → Except String SimState
  | [], st => .ok st
  | c :: rest, st =>
    match terminate_cell c st with
    | .error e => .error e
    | .ok st' => terminateLoop rest st'

/-- Embedding of `deathStep` (lines 524-531): sample
`floor(death_probability * len(pool))` cells without replacement from the
pool and terminate each. -/
def deathStep (p : CancerSimulatorParameters) (st : SimState) (r : PyRandom) :
    Except String (SimState × PyRandom) :=
  let k := (Rat.floor (qmul p.death_probability (mkRat st.pool.length 1))).toNat
  match pySample st.pool k r with
  | .error e => .error e
  | .ok vr =>
    match terminateLoop vr.1 st with
    | .error e => .error e
    | .ok st' => .ok (st', vr.2)

/-- Embedding of `bulk_seq` (lines 533-560): flatten the per-cell mutation lists, then
`np.histogram(reduced, mx-mn, range=(mn,mx))` and zip of left edges with
counts.  On an empty flattened list `np.min` raises `ValueError`; with
`bins = mx-mn = 0` `np.histogram` raises `ValueError`.  For integer data
and the integer unit-width edges produced here, bin `i < bins-1` counts
the value `mn+i` (half-open bin) and the last bin counts both `mx-1` and
`mx` (numpy's final bin is closed). -/
def bulk_seq (DNA : List (List Nat)) : Except String (List (Nat × Nat)) :=
  let reduced := DNA.flatten
  match reduced.min?, reduced.max? with
  | none, _ => .error "ValueError: zero-size array to reduction operation minimum"
  | _, none => .error "ValueError: zero-size array to reduction operation minimum"
  | some mn, some mx =>
    let bins := mx - mn
    if bins = 0 then .error "ValueError: bins must be positive"
    else
      .ok ((List.range bins).map (fun i =>
        (mn + i,
         if i = bins - 1 then reduced.countP (fun v => decide (mn + i ≤ v ∧ v ≤ mx))
         else reduced.countP (fun v => decide (v = mn + i)))))

/-- Embedding of `increase_mut_number` (lines 477-508): the clonal mutation (id 1) is
replicated `number_of_clonal` times; every other entry is replicated
`np.random.poisson(mutations_per_division)` times, one numpy draw per
entry.  Counts are converted to floats (here: rationals). -/
def increase_mut_number (p : CancerSimulatorParameters)
    (solid_pre_vaf : List (Nat × Nat)) (r : PyRandom) :
    List (Nat × ℚ) × PyRandom :=
  match solid_pre_vaf with
  | [] => ([], r)
  | (i, c) :: rest =>
    if i = 1 then
      let tail := increase_mut_number p rest r
      (List.replicate p.number_of_clonal (i, (c : ℚ)) ++ tail.1, tail.2)
    else
      let tail := increase_mut_number p rest (npTail r)
      (List.replicate (npHead r) (i, (c : ℚ)) ++ tail.1, tail.2)

/-! ## Lineage reconstruction -/

/-- The reverse parent map
`lookup_map = dict([(k,v) for v,k in self.__mut_container])`
(line 585): the lookup of own-id `m` finds the *last* pair whose own-id
field is `m` (later dict insertions override earlier ones) and returns its
parent field. -/
def lookupMap (container : List (Nat × Nat)) (m : Nat) : Option Nat :=
  (container.reverse.find? (fun e => decide (e.2 = m))).map (·.1)

/-- The `while m>0` walk of `mutation_reconstruction` (lines 604-609) with
explicit fuel; the returned list is in leaf-to-root order (as `mut_prof`
before the final reversal).  A missing key raises `KeyError`; fuel
exhaustion models divergence of the source loop. -/
def traceBack (container : List (Nat × Nat)) : Nat → Nat → Except String (List Nat)
  | _, 0 => .ok []
  | 0, _ + 1 => .error "nonterminating lineage walk"
  | fuel + 1, m + 1 =>
    match lookupMap container (m + 1) with
    | none => .error "KeyError"
    | some m' => (traceBack container fuel m').map ((m + 1) :: ·)

/-- Reconstruction of one cell's mutation list (`mutation_reconstruction`
body for one pool entry, lines 595-612): start from
`mut_container[cell][1]`, walk the reverse map to the root, reverse.  The
fuel given to the walk is the ledger length, so `.ok` means the walk
terminated within `ledger length` steps. -/
def reconstructCell (container : List (Nat × Nat)) (cellId : Nat) :
    Except String (List Nat) :=
  match container.get? cellId with
  | none => .error "IndexError: list index out of range"
  | some mc => (traceBack container container.length mc.2).map List.reverse

/-- The `for i in self.__pool` loop of `mutation_reconstruction`. -/
def reconstructLoop (mtx : Grid) (container : List (Nat × Nat)) :
    List Coord → Except String (List (List Nat))
  | [] => .ok []
  | i :: rest =>
    match mtxGet mtx i with
    | .error e => .error e
    | .ok cell =>
      match reconstructCell container cell with
      | .error e => .error e
      | .ok prof =>
        match reconstructLoop mtx container rest with
        | .error e => .error e
        | .ok tail => .ok (prof :: tail)

/-- Embedding of `mutation_reconstruction` (lines 573-614): reconstruct every cell of
the pool. -/
def mutation_reconstruction (st : SimState) : Except String (List (List Nat)) :=
  reconstructLoop st.mtx st.mut_container st.pool

/-! ## Division and mutation -/

/-- Embedding of `mutation` (lines 755-808).  One Bernoulli draw against
`mutation_rate`; on success the daughter gets clone-id
`len(mut_container)` and a ledger entry `(parent_own_id, counter+1)` is
appended, the beneficial bookkeeping runs (appending the daughter's id in
the `benefitial` branch, or an always-consumed advantageous draw gated on
an empty beneficial list and `step == time_of_advantageous_mutation` in
the other branch), then the mother also receives a fresh clone-id
`len(mut_container)-1` with a second ledger entry `(parent_own_id,
counter+2)`.  On failure the daughter inherits the mother's clone-id. -/
def mutation (p : CancerSimulatorParameters) (cell : Coord) (step mc : Nat)
    (place : Coord) (benefitial : Bool) (st : SimState) (r : PyRandom) :
    Except String (Nat × SimState × PyRandom) :=
  if qHead r < p.mutation_rate then
    match mtxSet st.mtx place st.mut_container.length with
    | .error e => .error e
    | .ok mtx1 =>
      match mtxGet mtx1 cell with
      | .error e => .error e
      | .ok cid =>
        match st.mut_container.get? cid with
        | none => .error "IndexError: list index out of range"
        | some e =>
          let container1 := st.mut_container ++ [(e.2, mc + 1)]
          match mtxGet mtx1 place with
          | .error e' => .error e'
          | .ok dval =>
            let br :=
              if benefitial then (st.benefitial_mutation ++ [dval], qTail r)
              else
                (if qHead (qTail r) < p.advantageous_mutation_probability ∧
                    st.benefitial_mutation = [] ∧
                    step = p.time_of_advantageous_mutation
                 then st.benefitial_mutation ++ [dval]
                 else st.benefitial_mutation, qTail (qTail r))
            match mtxGet mtx1 cell with
            | .error e' => .error e'
            | .ok cid2 =>
              match container1.get? cid2 with
              | none => .error "IndexError: list index out of range"
              | some e2 =>
                let container2 := container1 ++ [(e2.2, mc + 2)]
                match mtxSet mtx1 cell (container2.length - 1) with
                | .error e' => .error e'
                | .ok mtx2 =>
                  .ok (mc + 2,
                       { st with mtx := mtx2, mut_container := container2,
                                 benefitial_mutation := br.1 }, br.2)
  else
    match mtxGet st.mtx cell with
    | .error e => .error e
    | .ok cid =>
      match mtxSet st.mtx place cid with
      | .error e => .error e
      | .ok mtx1 => .ok (mc, { st with mtx := mtx1 }, qTail r)

/-- Embedding of `division` (lines 721-753): pick a uniformly random free neighbour,
append it to the temporary pool, then run `mutation`.  (The two source
branches on the `benefitial` flag perform identical steps, differing only
in the flag forwarded to `mutation`.) -/
def division (p : CancerSimulatorParameters) (cell : Coord)
    (benefitial : Bool) (neighbors : List Coord) (step mc : Nat)
    (temp : List Coord) (st : SimState) (r : PyRandom) :
    Except String (Nat × List Coord × SimState × PyRandom) :=
  match pyChoice neighbors r with
  | .error e => .error e
  | .ok pr =>
    match mutation p cell step mc pr.1 benefitial st pr.2 with
    | .error e => .error e
    | .ok msr => .ok (msr.1, temp ++ [pr.1], msr.2.1, msr.2.2)

/-- The per-cell loop of the authoritative `tumourGrowth` (lines 832-850):
for each cell with a non-empty free-neighbour set, gate `division` on one
Bernoulli draw against the advantageous division probability when the
cell's clone-id is in the beneficial list, else against the neutral one. -/
def cellLoop (p : CancerSimulatorParameters) :
    List Coord → Nat → Nat → List Coord → SimState → PyRandom →
    Except String (Nat × List Coord × SimState × PyRandom)
  | [], _, mc, temp, st, r => .ok (mc, temp, st, r)
  | c :: rest, step, mc, temp, st, r =>
    match neighbours st.mtx c with
    | .error e => .error e
    | .ok neigh =>
      if neigh = [] then cellLoop p rest step mc temp st r
      else
        match mtxGet st.mtx c with
        | .error e => .error e
        | .ok cid =>
          if cid ∈ st.benefitial_mutation then
            if qHead r < p.advantageous_division_probability then
              match division p c true neigh step mc temp st (qTail r) with
              | .error e => .error e
              | .ok dres => cellLoop p rest step dres.1 dres.2.1 dres.2.2.1 dres.2.2.2
            else cellLoop p rest step mc temp st (qTail r)
          else
            if qHead r < p.division_probability then
              match division p c false neigh step mc temp st (qTail r) with
              | .error e => .error e
              | .ok dres => cellLoop p rest step dres.1 dres.2.1 dres.2.2.1 dres.2.2.2
            else cellLoop p rest step mc temp st (qTail r)

/-- One generation of the authoritative `tumourGrowth` loop body
(lines 824-860, without the final-generation block): shuffle the pool,
run the per-cell loop, merge the temporary pool, record the population,
run `deathStep`, record the population again. -/
def oneGeneration (p : CancerSimulatorParameters) (step mc : Nat)
    (st : SimState) (r : PyRandom) :
    Except String (Nat × SimState × PyRandom) :=
  let sh := pyShuffle st.pool r
  match cellLoop p sh.1 step mc [] { st with pool := sh.1 } sh.2 with
  | .error e => .error e
  | .ok clr =>
    let st2 := clr.2.2.1
    let merged := st2.pool ++ clr.2.1
    let st3 := { st2 with pool := merged,
                          growth_plot_data := st2.growth_plot_data ++ [merged.length] }
    match deathStep p st3 clr.2.2.2 with
    | .error e => .error e
    | .ok dsr =>
      .ok (clr.1,
           { dsr.1 with growth_plot_data := dsr.1.growth_plot_data ++ [dsr.1.pool.length] },
           dsr.2)

/-- The final-generation list comprehension
`[self.mutation_reconstruction(self.__mtx[i]) for i in self.__pool]`
(line 864): for each pool entry the argument `self.__mtx[i]` is evaluated
and then `mutation_reconstruction` — a zero-argument method — is called
with one positional argument, which raises `TypeError`.  The body passed
to `callWithArity` is unreachable (the arity check fires first in Python);
it is typed as a per-cell list only to give this comprehension a type. -/
def finalReconstruct (st : SimState) : List Coord → Except String (List (List Nat))
  | [] => .ok []
  | i :: rest =>
    match mtxGet st.mtx i with
    | .error e => .error e
    | .ok _ =>
      match callWithArity 0 1
          ((mutation_reconstruction st).map List.flatten) with
      | .error e => .error e
      | .ok prof =>
        match finalReconstruct st rest with
        | .error e => .error e
        | .ok tail => .ok (prof :: tail)

/-- The loop of the authoritative `tumourGrowth` (lines 816-869): iterate
generations; inside the iteration with `step == number_of_generations-1`
run the final block (reconstruction, `bulk_seq`, `increase_mut_number`)
and return its result.  If the range is exhausted without reaching that
step the Python function falls off the end and returns `None`. -/
def tumourGrowthLoop (p : CancerSimulatorParameters) :
    Nat → Nat → Nat → SimState → PyRandom →
    Except String (Option (List (Nat × ℚ)) × SimState × PyRandom)
  | _, 0, _, st, r => .ok (none, st, r)
  | step, remaining + 1, mc, st, r =>
    match oneGeneration p step mc st r with
    | .error e => .error e
    | .ok gres =>
      if step = p.number_of_generations - 1 then
        match finalReconstruct gres.2.1 gres.2.1.pool with
        | .error e => .error e
        | .ok recons =>
          match bulk_seq recons with
          | .error e => .error e
          | .ok bv =>
            let scaled := increase_mut_number p bv gres.2.2
            .ok (some scaled.1, gres.2.1, scaled.2)
      else
        tumourGrowthLoop p (step + 1) remaining gres.1 gres.2.1 gres.2.2

/-- The authoritative `tumourGrowth` (lines 810-869): the mutation counter
is initialised to 1 regardless of tumour multiplicity (line 814), then the
generation loop runs from step 0. -/
def tumourGrowth (p : CancerSimulatorParameters) (st : SimState) (r : PyRandom) :
    Except String (Option (List (Nat × ℚ)) × SimState × PyRandom) :=
  tumourGrowthLoop p 0 p.number_of_generations 1 st r

/-- Helper for `deathStep_specModel`: the sub-pool of cells whose grid
value is (when `wantBenef` is true) or is not (otherwise) in the
beneficial list; coordinates whose lookup fails are dropped. -/
def splitPool (mtx : Grid) (benef : List Nat) (wantBenef : Bool) :
    List Coord → List Coord
  | [] => []
  | c :: rest =>
    match mtxGet mtx c with
    | .error _ => splitPool mtx benef wantBenef rest
    | .ok v =>
      if (decide (v ∈ benef)) = wantBenef then c :: splitPool mtx benef wantBenef rest
      else splitPool mtx benef wantBenef rest

/-- Modelled from the spec: the Death Step of section 4.4 with the
per-cell honouring of `fitness_advantage_death_probability` — the claim's
reading under which cells whose clone-id is in the Beneficial-mutation set
are sampled for death with the advantageous death probability while the
remaining cells are sampled with the neutral one.  (The source `deathStep`
has no such differential handling; this definition exists only to compare
the claim's words against the code.) -/
def deathStep_specModel (p : CancerSimulatorParameters) (st : SimState)
    (r : PyRandom) : Except String (SimState × PyRandom) :=
  let benefCells := splitPool st.mtx st.benefitial_mutation true st.pool
  let otherCells := splitPool st.mtx st.benefitial_mutation false st.pool
  let kb := (Rat.floor (qmul p.fitness_advantage_death_probability (mkRat benefCells.length 1))).toNat
  let kn := (Rat.floor (qmul p.death_probability (mkRat otherCells.length 1))).toNat
  match pySample benefCells kb r with
  | .error e => .error e
  | .ok vb =>
    match pySample otherCells kn vb.2 with
    | .error e => .error e
    | .ok vn =>
      match terminateLoop (vb.1 ++ vn.1) st with
      | .error e => .error e
      | .ok st' => .ok (st', vn.2)

/-! ## Concrete inputs used by the claim theorems -/

/-- The all-zero `random`-module stream (every Bernoulli with positive
threshold succeeds; every gate with threshold 0 fails). -/
def q0 : Nat → ℚ := fun _ => 0

/-- A constant numpy stream. -/
def npConst (k : Nat) : Nat → Nat := fun _ => k

/-- An ambient random state with all-zero streams (written as a literal
structure of literal lambdas so that residual streams of an evaluated
computation are syntactically this very value). -/
def R0 : PyRandom := ⟨fun _ => 0, fun _ => 0⟩

/-- A parameter bundle with all probabilities 0 (its gates never fire):
single mode, one generation, matrix size 10. -/
def Pzero : CancerSimulatorParameters :=
  { matrix_size := 10, number_of_generations := 1,
    division_probability := 0, advantageous_division_probability := 0,
    death_probability := 0, fitness_advantage_death_probability := 0,
    mutation_rate := 0, advantageous_mutation_probability := 0,
    mutations_per_division := 1, time_of_advantageous_mutation := 0,
    number_of_clonal := 1, tumour_multiplicity := .single }

/-- A parameter bundle whose division/mutation/advantageous gates always
fire (probability 1) with the advantageous mutation eligible at
generation 0 and no death. -/
def Pone : CancerSimulatorParameters :=
  { matrix_size := 10, number_of_generations := 5,
    division_probability := 1, advantageous_division_probability := 1,
    death_probability := 0, fitness_advantage_death_probability := 0,
    mutation_rate := 1, advantageous_mutation_probability := 1,
    mutations_per_division := 1, time_of_advantageous_mutation := 0,
    number_of_clonal := 1, tumour_multiplicity := .single }

/-- A double-mode parameter bundle with division and mutation gates that
always fire and no advantageous mutation. -/
def Pdouble : CancerSimulatorParameters :=
  { matrix_size := 10, number_of_generations := 3,
    division_probability := 1, advantageous_division_probability := 1,
    death_probability := 0, fitness_advantage_death_probability := 0,
    mutation_rate := 1, advantageous_mutation_probability := 0,
    mutations_per_division := 1, time_of_advantageous_mutation := 0,
    number_of_clonal := 1, tumour_multiplicity := .double }

/-- Death-step comparison bundle: neutral death probability 0, but
advantageous death probability 1. -/
def Pdeath : CancerSimulatorParameters :=
  { matrix_size := 10, number_of_generations := 1,
    division_probability := 0, advantageous_division_probability := 0,
    death_probability := 0, fitness_advantage_death_probability := 1,
    mutation_rate := 0, advantageous_mutation_probability := 0,
    mutations_per_division := 1, time_of_advantageous_mutation := 0,
    number_of_clonal := 1, tumour_multiplicity := .single }

/-- The `random`-module stream used for the double-mode trace: the second
cell's division gate (position 5) fails, everything else draws 0. -/
def qDouble : Nat → ℚ := fun n => if n = 5 then 1 else 0

/-- A mid-run state with one live cell of clone-id 2 carrying the
beneficial mutation. -/
def stBenef : SimState :=
  { mtx := ⟨10, [((5, 5), 2)]⟩
    mut_container := [(0, 0), (0, 1), (1, 2)]
    pool := [((5 : Int), (5 : Int))]
    benefitial_mutation := [2]
    growth_plot_data := [] }

/-- A single-mode initial state whose seed cell (clone-id 1) carries the
beneficial mutation — the mother cell used by the `C10` witness. -/
def stMother : SimState :=
  { mtx := ⟨10, [((5, 5), 1)]⟩
    mut_container := [(0, 0), (0, 1)]
    pool := [((5 : Int), (5 : Int))]
    benefitial_mutation := [1]
    growth_plot_data := [] }

/-- The state after generation 0 of the two-generation beneficial-set
trace (`C4`): the seed cell divided into `(4,6)` with a mutation, the
daughter's id 2 was seeded as the advantageous lineage, and the mother's
grid entry became 3. -/
def stGen1 : SimState :=
  { mtx := ⟨10, [((5, 5), 3), ((4, 6), 2)]⟩
    mut_container := [(0, 0), (0, 1), (1, 2), (1, 3)]
    pool := [((5 : Int), (5 : Int)), ((4 : Int), (6 : Int))]
    benefitial_mutation := [2]
    growth_plot_data := [2, 2] }

/-- The state after generation 1 of the same trace: the beneficial cell
`(4,6)` divided first (appending its daughter's id 4 to the beneficial
list), then the neutral cell `(5,5)` divided. -/
def stGen2 : SimState :=
  { mtx := ⟨10, [((5, 5), 7), ((5, 6), 6), ((4, 6), 5), ((3, 7), 4)]⟩
    mut_container := [(0, 0), (0, 1), (1, 2), (1, 3), (2, 4), (2, 5), (3, 6), (3, 7)]
    pool := [((4 : Int), (6 : Int)), ((5 : Int), (5 : Int)),
             ((3 : Int), (7 : Int)), ((5 : Int), (6 : Int))]
    benefitial_mutation := [2, 4]
    growth_plot_data := [2, 2, 4, 4] }

/-- The six-entry ledger used to exercise `reconstructCell_ok_of_invariants`
(a single-mode ledger after two mutation events, satisfying the section-3
invariants). -/
def C6ledger : List (Nat × Nat) := [(0, 0), (0, 1), (1, 2), (1, 3), (2, 4), (2, 5)]

/-- The end-of-generation state of one double-tumour generation from
`initialStateDouble10` under `qDouble` (the trace of the `C5` analysis): the
second seed cell divides with a mutation, the counter slip appends the
self-parent ledger entry `(2, 2)`, the daughter at `(5, 6)` gets clone-id 3
and the mother at `(6, 5)` gets clone-id 4. -/
def stDouble1 : SimState :=
  { mtx := ⟨10, [((6, 5), 4), ((5, 6), 3), ((4, 5), 1)]⟩
    mut_container := [(0, 0), (0, 1), (0, 2), (2, 2), (2, 3)]
    pool := [((6 : Int), (5 : Int)), ((4 : Int), (5 : Int)), ((5 : Int), (6 : Int))]
    benefitial_mutation := []
    growth_plot_data := [3, 3] }

/-! ## Witness inputs for the `C7` and `C10` theorems -/


/-- A bundle with neutral death probability 1 (and advantageous death
probability 0). -/
def Pkill : CancerSimulatorParameters :=
  { matrix_size := 10, number_of_generations := 1,
    division_probability := 0, advantageous_division_probability := 0,
    death_probability := 1, fitness_advantage_death_probability := 0,
    mutation_rate := 0, advantageous_mutation_probability := 0,
    mutations_per_division := 1, time_of_advantageous_mutation := 0,
    number_of_clonal := 1, tumour_multiplicity := .single }

/-- The bundle `Pkill` with the advantageous death probability raised to 1 — it
agrees with `Pkill` on the neutral death probability. -/
def PkillAdv : CancerSimulatorParameters :=
  { Pkill with fitness_advantage_death_probability := 1 }

/-- A two-cell state with pairwise-distinct pool coordinates. -/
def stPool2 : SimState :=
  { mtx := ⟨10, [((0, 0), 1), ((1, 1), 1)]⟩
    mut_container := [(0, 0), (0, 1)]
    pool := [((0 : Int), (0 : Int)), ((1 : Int), (1 : Int))]
    benefitial_mutation := []
    growth_plot_data := [] }

/-- The state `deathStep Pkill stPool2 R0` produces: both cells killed. -/
def stPool2Dead : SimState :=
  { mtx := ⟨10, [((1, 1), 0), ((0, 0), 0)]⟩
    mut_container := [(0, 0), (0, 1)]
    pool := []
    benefitial_mutation := []
    growth_plot_data := [] }

/-- The state after the `C10` witness mutation step: the daughter at
`(4,6)` got clone-id 2 (appended to the beneficial list), the mother's
grid entry at `(5,5)` became 3, which is not in the beneficial list. -/
def stMotherAfter : SimState :=
  { mtx := ⟨10, [((5, 5), 3), ((4, 6), 2)]⟩
    mut_container := [(0, 0), (0, 1), (1, 2), (1, 3)]
    pool := [((5 : Int), (5 : Int))]
    benefitial_mutation := [1, 2]
    growth_plot_data := [] }

/-- Replace the numpy component of the ambient random state. -/
def setNp (f : Nat → Nat) (r : PyRandom) : PyRandom := ⟨r.q, f⟩

/-- The projection of a run result onto the Spatial Grid / Lineage Ledger
state and the remaining seeded stream (dropping the VAF spectrum and the
numpy stream). -/
def stateView (x : Except String (Option (List (Nat × ℚ)) × SimState × PyRandom)) :
    Except String (SimState × (Nat → ℚ)) :=
  x.map (fun y => (y.2.1, y.2.2.q))


/-! ## Claim theorems -/

/-- The operation `qmul` is multiplication. -/
theorem qmul_eq_mul (a b : ℚ) : qmul a b = a * b := by
  rw [qmul, Rat.mkRat_eq_div]
  push_cast
  rw [← div_mul_div_comm, Rat.num_div_den, Rat.num_div_den]



/-- C1.  The claim says every run returns the scaled VAF spectrum at the
final generation.  On the code the final-generation block of the
authoritative `tumourGrowth` (line 864) calls the zero-argument method
`mutation_reconstruction` with a positional argument, so any run that
reaches its final generation with a non-empty pool raises `TypeError`
instead of returning a spectrum: here a single-mode run over a validated
bundle (matrix size 10, one generation, all probabilities 0). -/
theorem C1_final_generation_type_error :
    (tumourGrowth Pzero (initialStateSingle 10) R0).map (fun _ => ()) =
      .error "TypeError: mutation_reconstruction() takes 1 positional argument but 2 were given" := by
  decide

/-- C3.  The claim says `bulk_seq` bins each integer id into its own bin
and on `[[1,2],[1,3]]` yields count 2 for id 1 and count 1 each for ids 2
and 3.  The code passes `bins = mx-mn` to `np.histogram`, so the final
(closed) bin pools the two largest ids: the result is
`[(1,2),(2,2)]` — id 3 has no bin of its own and id 2 reports count 2. -/
theorem C3_bulk_seq_merges_last_two_ids :
    bulk_seq [[1, 2], [1, 3]] = .ok [(1, 2), (2, 2)] ∧
      bulk_seq [[1, 2], [1, 3]] ≠ .ok [(1, 2), (2, 1), (3, 1)] := by
  decide

/-- C5.  The claim says ledger own-ids are strictly increasing by position
(index-as-id addressing) with every parent strictly below its own id, in
both modes.  In double-tumour mode the authoritative `tumourGrowth`
initialises the mutation counter to 1 (line 814) although the ledger
already holds own-ids 0,1,2, so the first mutation event appends an entry
with own-id 2 again: after one generation from the double-mode initial
state the ledger is `[(0,0),(0,1),(0,2),(2,2),(2,3)]`, whose own-id
sequence `[0,1,2,2,3]` is not strictly increasing — and the appended entry
`(2,2)` has parent equal to its own id, breaking acyclicity. -/
theorem C5_double_mode_ledger_not_strictly_increasing :
    (oneGeneration Pdouble 0 1 initialStateDouble10 ⟨qDouble, npConst 0⟩).map
        (fun x => x.2.1.mut_container) =
      .ok [(0, 0), (0, 1), (0, 2), (2, 2), (2, 3)] ∧
    ¬ List.Chain' (· < ·) ([(0, 0), (0, 1), (0, 2), (2, 2), (2, 3)].map Prod.snd) ∧
    ¬ (2 : Nat) < 2 := by
  refine ⟨?_, ?_, by decide⟩
  · simp +decide [oneGeneration, cellLoop, division, mutation, neighbours, freeFilter,
      neighboursList, mtxGet, mtxSet, normIdx, pyChoice, choiceIdx, qmul, qHead, qTail,
      pyShuffle, shuffleAux, lswap, deathStep, pySample, sampleAux, terminateLoop,
      terminate_cell, initialStateDouble10, Pdouble, qDouble, npConst]
  · simp +decide [List.chain'_cons]

/-- C8.  The claim says the neighbour query returns only coordinates with
row and column inside `[0, matrix_size)`.  The code probes the scipy
matrix with raw offsets: a negative offset wraps to the opposite edge, so
the corner cell `(0,0)` of the (otherwise empty) single-mode initial grid
gets all eight raw neighbours — including `(-1,1)`, whose lookup wrapped
to row 9 — and a probe at `(9,9)` raises `IndexError` because the offset
10 exceeds the lattice. -/
theorem C8_neighbours_wraparound_and_overflow :
    neighbours (initialStateSingle 10).mtx (0, 0) =
      .ok [(-1, 1), (0, 1), (1, 1), (-1, 0), (1, 0), (-1, -1), (0, -1), (1, -1)] ∧
    ((-1 : Int), (1 : Int)) ∈ [((-1 : Int), (1 : Int)), (0, 1), (1, 1), (-1, 0), (1, 0), (-1, -1), (0, -1), (1, -1)] ∧
    ¬ (0 : Int) ≤ -1 ∧
    neighbours (initialStateSingle 10).mtx (9, 9) =
      .error "IndexError: index out of bounds" := by
  decide

/-- C9.  The claim says the histogram builder signals an explicit empty
result when the flattened mutation list is empty.  The code instead
reaches `np.min` of an empty array, which raises `ValueError` — for the
empty sample and for a sample of cells carrying no mutations alike. -/
theorem C9_bulk_seq_raises_on_empty :
    bulk_seq [] = .error "ValueError: zero-size array to reduction operation minimum" ∧
    bulk_seq [[]] = .error "ValueError: zero-size array to reduction operation minimum" := by
  decide

/-- C2 counterexample.  The claim says every random draw of a run —
including the multiplicity Poisson draws of `increase_mut_number` — comes
from the single generator seeded at run start, making the VAF spectrum
bit-identical across runs with the same seed.  The Poisson draws actually
come from numpy's global generator, which the run never seeds: with the
*seeded* stream held fixed, two ambient numpy streams (constant 0 and
constant 1) give different scaled spectra on the same input `[(2,5)]`,
and the seeded stream is not consumed at all. -/
theorem C2_poisson_draws_not_from_seeded_generator :
    (increase_mut_number Pone [(2, 5)] ⟨q0, npConst 0⟩).1 = [] ∧
    (increase_mut_number Pone [(2, 5)] ⟨q0, npConst 1⟩).1 = [(2, 5)] ∧
    (increase_mut_number Pone [(2, 5)] ⟨q0, npConst 0⟩).1 ≠
      (increase_mut_number Pone [(2, 5)] ⟨q0, npConst 1⟩).1 ∧
    (increase_mut_number Pone [(2, 5)] ⟨q0, npConst 0⟩).2.q = q0 := by
  refine ⟨by decide, by decide, by decide, ?_⟩
  rfl

/-- C4 counterexample.  The claim says the Beneficial-mutation set has
cardinality at most 1 throughout every run.  Starting the single-mode
initial state with gates at probability 1 and the advantageous mutation
eligible at generation 0 (the counter initialised to 1 as in
`tumourGrowth`), generation 0 seeds the set with the daughter id 2; in
generation 1 the beneficial cell `(4,6)` divides first (the shuffle
reverses the two-cell pool) and its mutating division appends its
daughter's id 4: the set reaches `[2, 4]`, cardinality 2. -/
theorem C4_beneficial_set_reaches_cardinality_two :
    (Except.bind (oneGeneration Pone 0 1 (initialStateSingle 10) R0)
        (fun a => oneGeneration Pone 1 a.1 a.2.1 a.2.2)).map
        (fun x => x.2.1.benefitial_mutation) = .ok [2, 4] ∧
    ¬ ([2, 4] : List Nat).length ≤ 1 := by
  have h0 : oneGeneration Pone 0 1 (initialStateSingle 10) R0 = .ok (3, stGen1, R0) := by
    simp +decide [oneGeneration, cellLoop, division, mutation, neighbours, freeFilter,
      neighboursList, mtxGet, mtxSet, normIdx, pyChoice, choiceIdx, qmul, qHead, qTail,
      pyShuffle, shuffleAux, lswap, deathStep, pySample, sampleAux, terminateLoop,
      terminate_cell, initialStateSingle, Pone, stGen1, R0]
  have h1 : oneGeneration Pone 1 3 stGen1 R0 = .ok (7, stGen2, R0) := by
    simp +decide [oneGeneration, cellLoop, division, mutation, neighbours, freeFilter,
      neighboursList, mtxGet, mtxSet, normIdx, pyChoice, choiceIdx, qmul, qHead, qTail,
      pyShuffle, shuffleAux, lswap, deathStep, pySample, sampleAux, terminateLoop,
      terminate_cell, stGen1, stGen2, Pone, R0]
  refine ⟨?_, by decide⟩
  rw [h0]
  simp only [Except.bind]
  rw [h1]
  rfl

/-! ## Sampling and death-step lemmas -/

/-- The index `choiceIdx n v` is below `n` whenever `n` is positive. -/
theorem choiceIdx_lt (n : Nat) (v : ℚ) (h : 0 < n) : choiceIdx n v < n := by
  have hm : choiceIdx n v ≤ n - 1 := min_le_right _ _
  omega

/-- Reading `List.getD` at an in-range index is `List.get`. -/
theorem getD_eq_get {α : Type} (l : List α) (i : Nat) (d : α) (h : i < l.length) :
    l.getD i d = l.get ⟨i, h⟩ := by
  simp [List.getD_eq_getElem?_getD, List.getElem?_eq_getElem h, List.get_eq_getElem]

/-- A list element is not a member of the list with its position erased,
provided the list has no duplicates. -/
theorem get_not_mem_eraseIdx {α : Type} [DecidableEq α] (l : List α) (i : Nat)
    (h : l.Nodup) (hi : i < l.length) : l.get ⟨i, hi⟩ ∉ l.eraseIdx i := by
  intro hmem
  rw [List.mem_eraseIdx_iff_getElem] at hmem
  obtain ⟨j, hj, hne, hget⟩ := hmem
  have hinj : (⟨j, hj⟩ : Fin l.length) = ⟨i, hi⟩ :=
    List.nodup_iff_injective_get.1 h (by simpa [List.get_eq_getElem] using hget)
  exact hne (by simpa using congrArg Fin.val hinj)

/-- The without-replacement sampler returns exactly `k` pairwise-distinct
members of the population (for `k` within the population size). -/
theorem sampleAux_spec {α : Type} [DecidableEq α] (k : Nat) :
    ∀ (l : List α) (r : PyRandom), l.Nodup → k ≤ l.length →
      (sampleAux l k r).1.length = k ∧ (sampleAux l k r).1.Nodup ∧
      ∀ x ∈ (sampleAux l k r).1, x ∈ l := by
  induction k with
  | zero => intro l r _ _; simp [sampleAux]
  | succ k ih =>
    intro l r hnd hk
    match l with
    | [] => simp at hk
    | a :: t =>
      have hlen : 0 < (a :: t).length := by simp
      have hidxlt : choiceIdx (a :: t).length (qHead r) < (a :: t).length :=
        choiceIdx_lt _ _ hlen
      have hget : (a :: t).getD (choiceIdx (a :: t).length (qHead r)) a =
          (a :: t).get ⟨choiceIdx (a :: t).length (qHead r), hidxlt⟩ :=
        getD_eq_get _ _ _ hidxlt
      have herlen : (((a :: t)).eraseIdx (choiceIdx (a :: t).length (qHead r))).length =
          (a :: t).length - 1 := by
        have := List.length_eraseIdx_add_one hidxlt; omega
      have hernd : (((a :: t)).eraseIdx (choiceIdx (a :: t).length (qHead r))).Nodup :=
        hnd.sublist (List.eraseIdx_sublist _ _)
      have hk' : k ≤ (((a :: t)).eraseIdx (choiceIdx (a :: t).length (qHead r))).length := by
        rw [herlen]
        simp only [List.length_cons] at hk ⊢
        omega
      obtain ⟨ihlen, ihnd, ihmem⟩ :=
        ih (((a :: t)).eraseIdx (choiceIdx (a :: t).length (qHead r))) (qTail r) hernd hk'
      have hunfold : sampleAux (a :: t) (k + 1) r =
          ((a :: t).getD (choiceIdx (a :: t).length (qHead r)) a ::
             (sampleAux (((a :: t)).eraseIdx (choiceIdx (a :: t).length (qHead r))) k (qTail r)).1,
           (sampleAux (((a :: t)).eraseIdx (choiceIdx (a :: t).length (qHead r))) k (qTail r)).2) :=
        rfl
      rw [hunfold]
      refine ⟨by
        rw [show ((a :: t).getD (choiceIdx (a :: t).length (qHead r)) a ::
              (sampleAux (((a :: t)).eraseIdx (choiceIdx (a :: t).length (qHead r))) k
                (qTail r)).1).length =
            (sampleAux (((a :: t)).eraseIdx (choiceIdx (a :: t).length (qHead r))) k
                (qTail r)).1.length + 1 from rfl, ihlen], ?_, ?_⟩
      · simp only [List.nodup_cons]
        refine ⟨?_, ihnd⟩
        intro hmem
        have hx := ihmem _ hmem
        rw [hget] at hx
        exact get_not_mem_eraseIdx _ _ hnd hidxlt hx
      · intro x hx
        simp only [List.mem_cons] at hx
        rcases hx with hx | hx
        · subst hx
          rw [hget]
          exact List.get_mem _ _ _
        · exact (List.eraseIdx_sublist _ _).mem (ihmem _ hx)

/-- Running `terminateLoop` on pairwise-distinct victims drawn from the pool
removes exactly one pool entry per victim and touches neither the ledger
nor the beneficial list. -/
theorem terminateLoop_spec :
    ∀ (v : List Coord) (st out : SimState),
      v.Nodup → (∀ x ∈ v, x ∈ st.pool) → terminateLoop v st = .ok out →
      out.pool.length = st.pool.length - v.length ∧
      out.benefitial_mutation = st.benefitial_mutation ∧
      out.mut_container = st.mut_container
  | [], st, out, _, _, h => by
    rw [terminateLoop] at h
    cases h
    exact ⟨rfl, rfl, rfl⟩
  | c :: rest, st, out, hnd, hmem, h => by
    rw [terminateLoop] at h
    have hc : c ∈ st.pool := hmem c (by simp)
    rw [terminate_cell, if_pos hc] at h
    cases hset : mtxSet st.mtx c 0 with
    | error e => rw [hset] at h; cases h
    | ok mtx' =>
      rw [hset] at h
      simp only [List.nodup_cons] at hnd
      have hrest : ∀ x ∈ rest, x ∈ st.pool.erase c := by
        intro x hx
        refine (List.mem_erase_of_ne ?_).2 (hmem x (by simp [hx]))
        intro hxc
        exact hnd.1 (by rw [← hxc]; exact hx)
      obtain ⟨hl, hb, hm⟩ := terminateLoop_spec rest _ out hnd.2 hrest h
      have hproj : ({ st with pool := st.pool.erase c, mtx := mtx' } : SimState).pool =
          st.pool.erase c := rfl
      rw [hproj] at hl
      refine ⟨?_, hb, hm⟩
      rw [hl, List.length_erase_of_mem hc]
      have hpos : 0 < st.pool.length := List.length_pos.2 (fun he => by simp [he] at hc)
      simp only [List.length_cons]
      omega

/-- C7 amended.  The Death Step removes exactly
`floor(death_probability × |pool|)` cells, chosen without replacement from
the whole live pool, and it never consults
`fitness_advantage_death_probability`: two parameter bundles agreeing on
the neutral death probability produce the identical death step. -/
theorem C7_death_step_uniform_neutral_probability_only
    (p p' : CancerSimulatorParameters) (st : SimState) (r : PyRandom)
    (out : SimState × PyRandom)
    (hdp : p.death_probability = p'.death_probability)
    (hnd : st.pool.Nodup)
    (hok : deathStep p st r = .ok out) :
    deathStep p' st r = deathStep p st r ∧
    out.1.pool.length =
      st.pool.length -
        (Rat.floor (qmul p.death_probability (mkRat st.pool.length 1))).toNat := by
  constructor
  · simp only [deathStep, hdp]
  · rw [deathStep] at hok
    by_cases hkle :
        (Rat.floor (qmul p.death_probability (mkRat st.pool.length 1))).toNat >
          st.pool.length
    · rw [pySample, if_pos hkle] at hok
      cases hok
    · rw [pySample, if_neg hkle] at hok
      have hok' : (match terminateLoop
            (sampleAux st.pool
              ((Rat.floor (qmul p.death_probability (mkRat st.pool.length 1))).toNat) r).1
            st with
          | .error e => (.error e : Except String (SimState × PyRandom))
          | .ok st' => .ok (st',
              (sampleAux st.pool
                ((Rat.floor (qmul p.death_probability (mkRat st.pool.length 1))).toNat) r).2)) =
          .ok out := hok
      obtain ⟨hlen, hvnd, hvmem⟩ :=
        sampleAux_spec
          ((Rat.floor (qmul p.death_probability (mkRat st.pool.length 1))).toNat)
          st.pool r hnd (by omega)
      cases ht : terminateLoop
          (sampleAux st.pool
            ((Rat.floor (qmul p.death_probability (mkRat st.pool.length 1))).toNat) r).1
          st with
      | error e => rw [ht] at hok'; cases hok'
      | ok st' =>
        rw [ht] at hok'
        cases hok'
        obtain ⟨hl, _, _⟩ := terminateLoop_spec _ _ _ hvnd hvmem ht
        rw [hlen] at hl
        exact hl

/-- C7 counterexample.  The claim says a cell whose clone-id is in the
Beneficial-mutation set is sampled for death with
`fitness_advantage_death_probability` instead of the neutral probability.
With neutral death probability 0 and advantageous death probability 1, a
pool consisting of one beneficial cell is left untouched by the source
`deathStep` (it kills `floor(0·1) = 0` cells), while the spec-modelled
differential death step kills the cell: the configured advantageous death
probability is never consulted by the code. -/
theorem C7_fitness_death_probability_ignored :
    (deathStep Pdeath stBenef R0).map (fun x => x.1.pool) =
      .ok [((5 : Int), (5 : Int))] ∧
    (deathStep_specModel Pdeath stBenef R0).map (fun x => x.1.pool) = .ok [] ∧
    (2 : Nat) ∈ stBenef.benefitial_mutation ∧
    Pdeath.fitness_advantage_death_probability = 1 := by
  decide

/-! ## Mutation-step lemmas -/

/-- Reading a grid cell immediately after writing it returns the written
value. -/
theorem mtxGet_after_set (g g' : Grid) (c : Coord) (v : Nat)
    (h : mtxSet g c v = .ok g') : mtxGet g' c = .ok v := by
  rw [mtxSet] at h
  cases h1 : normIdx g.size c.1 with
  | error e => rw [h1] at h; cases h
  | ok i =>
    rw [h1] at h
    cases h2 : normIdx g.size c.2 with
    | error e => rw [h2] at h; cases h
    | ok j =>
      rw [h2] at h
      cases h
      rw [mtxGet]
      have hsize : (Grid.mk g.size (((i, j), v) ::
          g.entries.filter (fun e => ! decide (e.1 = (i, j))))).size = g.size := rfl
      rw [hsize, h1, h2]
      simp [List.find?]

/-- C10.  In a division of a beneficial mother in which the mutation draw
succeeds, only the daughter's newly minted clone-id
(`len(mut_container)`) is appended to the beneficial list; the mother's
fresh clone-id (`len(mut_container)+1`, written to her grid entry in the
same step) is not in the updated list — the mother cell drops out of the
advantageous phenotype. -/
theorem C10_mother_loses_advantage
    (p : CancerSimulatorParameters) (cell place : Coord) (step mc : Nat)
    (st : SimState) (r : PyRandom) (out : Nat × SimState × PyRandom)
    (hq : qHead r < p.mutation_rate)
    (hb : ∀ b ∈ st.benefitial_mutation, b ≤ st.mut_container.length)
    (hok : mutation p cell step mc place true st r = .ok out) :
    out.2.1.benefitial_mutation =
      st.benefitial_mutation ++ [st.mut_container.length] ∧
    mtxGet out.2.1.mtx cell = .ok (st.mut_container.length + 1) ∧
    st.mut_container.length + 1 ∉ out.2.1.benefitial_mutation := by
  rw [mutation, if_pos hq] at hok
  cases h1 : mtxSet st.mtx place st.mut_container.length with
  | error e => simp only [h1] at hok; exact Except.noConfusion hok
  | ok mtx1 =>
    simp only [h1] at hok
    cases h2 : mtxGet mtx1 cell with
    | error e => simp only [h2] at hok; exact Except.noConfusion hok
    | ok cid =>
      simp only [h2] at hok
      cases h3 : st.mut_container.get? cid with
      | none => simp only [h3] at hok; exact Except.noConfusion hok
      | some e =>
        simp only [h3] at hok
        cases h4 : mtxGet mtx1 place with
        | error e' => simp only [h4] at hok; exact Except.noConfusion hok
        | ok dval =>
          simp only [h4] at hok
          have hdval : dval = st.mut_container.length := by
            have hd := mtxGet_after_set _ _ _ _ h1
            rw [h4] at hd
            cases hd
            rfl
          cases h6 : (st.mut_container ++ [(e.2, mc + 1)]).get? cid with
          | none => simp only [h6] at hok; exact Except.noConfusion hok
          | some e2 =>
            simp only [h6] at hok
            cases h7 : mtxSet mtx1 cell
                ((st.mut_container ++ [(e.2, mc + 1)] ++ [(e2.2, mc + 2)]).length - 1) with
            | error e' => simp only [h7] at hok; exact Except.noConfusion hok
            | ok mtx2 =>
              simp only [h7, if_pos] at hok
              cases hok
              have hlen : (st.mut_container ++ [(e.2, mc + 1)] ++ [(e2.2, mc + 2)]).length - 1 =
                  st.mut_container.length + 1 := by
                simp [List.length_append]
              refine ⟨by simp [hdval], ?_, ?_⟩
              · have hg := mtxGet_after_set _ _ _ _ h7
                rw [hlen] at hg
                exact hg
              · simp only [List.mem_append, List.mem_singleton, hdval]
                rintro (hmem | hmem)
                · exact absurd (hb _ hmem) (by omega)
                · omega

/-! ## Lineage-reconstruction lemmas -/

/-- A successful reverse-map lookup returns the parent field of an actual
ledger entry whose own-id is the looked-up id. -/
theorem lookupMap_spec (c : List (Nat × Nat)) (m p : Nat)
    (h : lookupMap c m = some p) :
    ∃ e ∈ c, e.2 = m ∧ e.1 = p := by
  rw [lookupMap] at h
  cases hf : c.reverse.find? (fun e => decide (e.2 = m)) with
  | none => rw [hf] at h; cases h
  | some e =>
    rw [hf] at h
    cases h
    refine ⟨e, ?_, ?_, rfl⟩
    · exact List.mem_reverse.1 (List.mem_of_find?_eq_some hf)
    · simpa using List.find?_some hf

/-- An entry whose own-id is present makes the reverse-map lookup
succeed. -/
theorem lookupMap_isSome (c : List (Nat × Nat)) (m : Nat)
    (h : ∃ e ∈ c, e.2 = m) : ∃ p, lookupMap c m = some p := by
  rw [lookupMap]
  obtain ⟨e, hmem, hown⟩ := h
  cases hf : c.reverse.find? (fun x => decide (x.2 = m)) with
  | none =>
    have := List.find?_eq_none.1 hf e (List.mem_reverse.2 hmem)
    simp [hown] at this
  | some e' => exact ⟨e'.1, by simp⟩

/-- Termination of the ledger walk: under the acyclicity invariant
(every entry with positive own-id has a strictly smaller parent) and
parent-closure (every parent is 0 or an own-id present in the ledger),
the walk from own-id `m` succeeds once the fuel reaches `m`, visits at
most `m` ids, all bounded by `m`, in strictly decreasing order starting
at `m` itself. -/
theorem traceBack_ok (c : List (Nat × Nat))
    (hpar : ∀ e ∈ c, 0 < e.2 → e.1 < e.2)
    (hclosed : ∀ e ∈ c, e.1 = 0 ∨ ∃ e' ∈ c, e'.2 = e.1) :
    ∀ m, (m = 0 ∨ ∃ e ∈ c, e.2 = m) → ∀ fuel, m ≤ fuel →
      ∃ l, traceBack c fuel m = .ok l ∧ l.length ≤ m ∧
        (0 < m → l ≠ [] ∧ l.head? = some m) ∧
        List.Chain' (· > ·) l := by
  intro m
  induction m using Nat.strong_induction_on with
  | _ m ih =>
    intro hmem fuel hfuel
    match m with
    | 0 =>
      refine ⟨[], ?_, by simp, by simp, by simp⟩
      cases fuel <;> rfl
    | m' + 1 =>
      match fuel with
      | 0 => omega
      | fuel' + 1 =>
        rcases hmem with hmem | hmem
        · cases hmem
        obtain ⟨p, hp⟩ := lookupMap_isSome c (m' + 1) hmem
        obtain ⟨e, hemem, heown, hepar⟩ := lookupMap_spec c (m' + 1) p hp
        have hplt : p < m' + 1 := by
          have := hpar e hemem (by omega)
          omega
        have hpmem : p = 0 ∨ ∃ e' ∈ c, e'.2 = p := by
          rcases hclosed e hemem with h0 | hnext
          · left; omega
          · right; rw [hepar] at hnext; exact hnext
        obtain ⟨l', hl', hlen', hhead', hchain'⟩ :=
          ih p hplt hpmem fuel' (by omega)
        refine ⟨(m' + 1) :: l', ?_,
          by simp only [List.length_cons]; omega, by simp, ?_⟩
        · rw [traceBack, hp]
          simp [hl', Except.map]
        · rw [List.chain'_cons']
          refine ⟨?_, hchain'⟩
          intro y hy
          rcases Nat.eq_zero_or_pos p with hp0 | hppos
          · subst hp0
            have hnil : l' = [] := List.length_eq_zero.1 (Nat.le_zero.1 hlen')
            subst hnil
            cases hy
          · obtain ⟨-, hhead⟩ := hhead' hppos
            rw [hhead] at hy
            cases hy
            omega

/-- Under the Lineage Ledger invariants of spec section 3 — parents strictly
below their own ids (for non-root entries), every parent id 0 or an own-id
present in the ledger, own-ids bounded by the ledger length — reconstruction
of a live cell (one whose grid value is a valid ledger position with
positive own-id) terminates within `ledger length` steps (the exact fuel
`reconstructCell` hands the walk) and returns a non-empty root-to-leaf
(strictly increasing) list of mutation ids.  Single-mode ledgers satisfy
these invariants; the `C6` theorem below shows a reachable double-mode
ledger does not, and there reconstruction diverges. -/
theorem reconstructCell_ok_of_invariants
    (c : List (Nat × Nat)) (cellId : Nat) (e : Nat × Nat)
    (hpar : ∀ x ∈ c, 0 < x.2 → x.1 < x.2)
    (hclosed : ∀ x ∈ c, x.1 = 0 ∨ ∃ y ∈ c, y.2 = x.1)
    (hbound : ∀ x ∈ c, x.2 ≤ c.length)
    (hcell : c.get? cellId = some e) (hpos : 0 < e.2) :
    ∃ l, reconstructCell c cellId = .ok l ∧ l ≠ [] ∧ l.length ≤ c.length ∧
      List.Chain' (· < ·) l := by
  have hemem : e ∈ c := List.get?_mem hcell
  obtain ⟨l, hl, hlen, hhead, hchain⟩ :=
    traceBack_ok c hpar hclosed e.2 (Or.inr ⟨e, hemem, rfl⟩) c.length (hbound e hemem)
  refine ⟨l.reverse, ?_, ?_, ?_, ?_⟩
  · rw [reconstructCell, hcell]
    simp [hl, Except.map]
  · simpa using (hhead hpos).1
  · simpa using le_trans hlen (hbound e hemem)
  · exact List.chain'_reverse.mpr hchain

/-- Example for `reconstructCell_ok_of_invariants`: on the concrete
single-mode ledger `C6ledger`, the live cell with clone-id 4 reconstructs
to the non-empty increasing lineage `[1, 2, 4]` within 6 steps. -/
theorem reconstructCell_ok_of_invariants_example :
    (∀ x ∈ C6ledger, 0 < x.2 → x.1 < x.2) ∧
    (∀ x ∈ C6ledger, x.1 = 0 ∨ ∃ y ∈ C6ledger, y.2 = x.1) ∧
    (∀ x ∈ C6ledger, x.2 ≤ C6ledger.length) ∧
    C6ledger.get? 4 = some (2, 4) ∧
    (∃ l, reconstructCell C6ledger 4 = .ok l ∧ l ≠ [] ∧
      l.length ≤ C6ledger.length ∧ List.Chain' (· < ·) l) :=
  ⟨by decide, by decide, by decide, by decide,
   reconstructCell_ok_of_invariants C6ledger 4 (2, 4) (by decide) (by decide)
     (by decide) (by decide) (by decide)⟩

/-- C6.  The claim says Lineage Reconstruction of every live cell at the
end of a run terminates within `ledger length` steps and returns a
non-empty root-to-leaf list, termination being guaranteed by the ledger's
cycle-free invariant (spec section 3).  The double-mode counter slip of
`tumourGrowth` (line 814) breaks that invariant on a reachable run: one
mutating generation from the double-mode initial state ends in the state
`stDouble1`, whose ledger holds the self-parent entry `(2, 2)`.  Its live
cells at `(6, 5)` and `(5, 6)` carry clone-ids 4 and 3, the reverse lookup
map sends mutation id 2 to parent 2, so the `while m>0` walk of
`mutation_reconstruction` (line 604) revisits id 2 forever: the embedded
walk fails for every fuel (more fuel never helps), reconstruction of
either live cell fails within the ledger-length budget, and
`mutation_reconstruction` on the end-of-generation state diverges instead
of returning a list per live cell. -/
theorem C6_double_mode_reconstruction_diverges :
    (oneGeneration Pdouble 0 1 initialStateDouble10 ⟨qDouble, npConst 0⟩).map
        (fun x => x.2.1) = .ok stDouble1 ∧
    stDouble1.mut_container = [(0, 0), (0, 1), (0, 2), (2, 2), (2, 3)] ∧
    mtxGet stDouble1.mtx ((6 : Int), (5 : Int)) = .ok 4 ∧
    mtxGet stDouble1.mtx ((5 : Int), (6 : Int)) = .ok 3 ∧
    lookupMap stDouble1.mut_container 2 = some 2 ∧
    (∀ fuel, traceBack stDouble1.mut_container fuel 2 =
      .error "nonterminating lineage walk") ∧
    reconstructCell stDouble1.mut_container 3 =
      .error "nonterminating lineage walk" ∧
    reconstructCell stDouble1.mut_container 4 =
      .error "nonterminating lineage walk" ∧
    (oneGeneration Pdouble 0 1 initialStateDouble10 ⟨qDouble, npConst 0⟩).bind
        (fun x => mutation_reconstruction x.2.1) =
      .error "nonterminating lineage walk" := by
  have hgen : (oneGeneration Pdouble 0 1 initialStateDouble10 ⟨qDouble, npConst 0⟩).map
      (fun x => x.2.1) = .ok stDouble1 := by
    simp +decide [oneGeneration, cellLoop, division, mutation, neighbours, freeFilter,
      neighboursList, mtxGet, mtxSet, normIdx, pyChoice, choiceIdx, qmul, qHead, qTail,
      pyShuffle, shuffleAux, lswap, deathStep, pySample, sampleAux, terminateLoop,
      terminate_cell, initialStateDouble10, Pdouble, qDouble, npConst, stDouble1]
  have hwalk : ∀ fuel, traceBack stDouble1.mut_container fuel 2 =
      .error "nonterminating lineage walk" := by
    intro fuel
    induction fuel with
    | zero => rfl
    | succ f ih =>
      have hstep : traceBack stDouble1.mut_container (f + 1) 2 =
          (traceBack stDouble1.mut_container f 2).map ((2 : Nat) :: ·) := rfl
      rw [hstep, ih]
      rfl
  refine ⟨hgen, rfl, by decide, by decide, by decide, hwalk, by decide, by decide, ?_⟩
  cases hg : oneGeneration Pdouble 0 1 initialStateDouble10 ⟨qDouble, npConst 0⟩ with
  | error e => rw [hg] at hgen; exact Except.noConfusion hgen
  | ok a =>
    rw [hg] at hgen
    have ha : a.2.1 = stDouble1 := by simpa [Except.map] using hgen
    show mutation_reconstruction a.2.1 = .error "nonterminating lineage walk"
    rw [ha]
    decide

/-! ## Append-only behaviour of the beneficial list -/

/-- The step `mutation` only ever appends to the beneficial list. -/
theorem mutation_benef_append (p : CancerSimulatorParameters) (cell place : Coord)
    (step mc : Nat) (b : Bool) (st : SimState) (r : PyRandom)
    (out : Nat × SimState × PyRandom)
    (hok : mutation p cell step mc place b st r = .ok out) :
    ∃ t, out.2.1.benefitial_mutation = st.benefitial_mutation ++ t := by
  rw [mutation] at hok
  by_cases hq : qHead r < p.mutation_rate
  · rw [if_pos hq] at hok
    cases h1 : mtxSet st.mtx place st.mut_container.length with
    | error e => simp only [h1] at hok; exact Except.noConfusion hok
    | ok mtx1 =>
      simp only [h1] at hok
      cases h2 : mtxGet mtx1 cell with
      | error e => simp only [h2] at hok; exact Except.noConfusion hok
      | ok cid =>
        simp only [h2] at hok
        cases h3 : st.mut_container.get? cid with
        | none => simp only [h3] at hok; exact Except.noConfusion hok
        | some e =>
          simp only [h3] at hok
          cases h4 : mtxGet mtx1 place with
          | error e' => simp only [h4] at hok; exact Except.noConfusion hok
          | ok dval =>
            simp only [h4] at hok
            cases h6 : (st.mut_container ++ [(e.2, mc + 1)]).get? cid with
            | none => simp only [h6] at hok; exact Except.noConfusion hok
            | some e2 =>
              simp only [h6] at hok
              cases h7 : mtxSet mtx1 cell
                  ((st.mut_container ++ [(e.2, mc + 1)] ++ [(e2.2, mc + 2)]).length - 1) with
              | error e' => simp only [h7] at hok; exact Except.noConfusion hok
              | ok mtx2 =>
                simp only [h7] at hok
                cases hok
                by_cases hbf : b
                · exact ⟨[dval], by simp [hbf]⟩
                · simp only [hbf]
                  by_cases hcond : qHead (qTail r) < p.advantageous_mutation_probability ∧
                      st.benefitial_mutation = [] ∧ step = p.time_of_advantageous_mutation
                  · exact ⟨[dval], by simp [hcond]⟩
                  · exact ⟨[], by simp [hcond]⟩
  · rw [if_neg hq] at hok
    cases h1 : mtxGet st.mtx cell with
    | error e => simp only [h1] at hok; exact Except.noConfusion hok
    | ok cid =>
      simp only [h1] at hok
      cases h2 : mtxSet st.mtx place cid with
      | error e => simp only [h2] at hok; exact Except.noConfusion hok
      | ok mtx1 =>
        simp only [h2] at hok
        cases hok
        exact ⟨[], by simp⟩

/-- The step `division` only ever appends to the beneficial list. -/
theorem division_benef_append (p : CancerSimulatorParameters) (cell : Coord)
    (b : Bool) (neighbors : List Coord) (step mc : Nat) (temp : List Coord)
    (st : SimState) (r : PyRandom) (out : Nat × List Coord × SimState × PyRandom)
    (hok : division p cell b neighbors step mc temp st r = .ok out) :
    ∃ t, out.2.2.1.benefitial_mutation = st.benefitial_mutation ++ t := by
  rw [division] at hok
  cases h1 : pyChoice neighbors r with
  | error e => simp only [h1] at hok; exact Except.noConfusion hok
  | ok pr =>
    simp only [h1] at hok
    cases h2 : mutation p cell step mc pr.1 b st pr.2 with
    | error e => simp only [h2] at hok; exact Except.noConfusion hok
    | ok msr =>
      simp only [h2] at hok
      cases hok
      exact mutation_benef_append p cell pr.1 step mc b st pr.2 msr h2

/-- The per-cell loop only ever appends to the beneficial list. -/
theorem cellLoop_benef_append (p : CancerSimulatorParameters) :
    ∀ (cells : List Coord) (step mc : Nat) (temp : List Coord) (st : SimState)
      (r : PyRandom) (out : Nat × List Coord × SimState × PyRandom),
      cellLoop p cells step mc temp st r = .ok out →
      ∃ t, out.2.2.1.benefitial_mutation = st.benefitial_mutation ++ t
  | [], step, mc, temp, st, r, out, hok => by
    rw [cellLoop] at hok
    cases hok
    exact ⟨[], by simp⟩
  | c :: rest, step, mc, temp, st, r, out, hok => by
    rw [cellLoop] at hok
    cases h1 : neighbours st.mtx c with
    | error e => simp only [h1] at hok; exact Except.noConfusion hok
    | ok neigh =>
      simp only [h1] at hok
      by_cases hne : neigh = []
      · rw [if_pos hne] at hok
        exact cellLoop_benef_append p rest step mc temp st r out hok
      · rw [if_neg hne] at hok
        cases h2 : mtxGet st.mtx c with
        | error e => simp only [h2] at hok; exact Except.noConfusion hok
        | ok cid =>
          simp only [h2] at hok
          by_cases hmem : cid ∈ st.benefitial_mutation
          · rw [if_pos hmem] at hok
            by_cases hq : qHead r < p.advantageous_division_probability
            · rw [if_pos hq] at hok
              cases h3 : division p c true neigh step mc temp st (qTail r) with
              | error e => simp only [h3] at hok; exact Except.noConfusion hok
              | ok dres =>
                simp only [h3] at hok
                obtain ⟨t1, ht1⟩ := division_benef_append p c true neigh step mc temp st
                  (qTail r) dres h3
                obtain ⟨t2, ht2⟩ := cellLoop_benef_append p rest step dres.1 dres.2.1
                  dres.2.2.1 dres.2.2.2 out hok
                exact ⟨t1 ++ t2, by rw [ht2, ht1, List.append_assoc]⟩
            · rw [if_neg hq] at hok
              exact cellLoop_benef_append p rest step mc temp st (qTail r) out hok
          · rw [if_neg hmem] at hok
            by_cases hq : qHead r < p.division_probability
            · rw [if_pos hq] at hok
              cases h3 : division p c false neigh step mc temp st (qTail r) with
              | error e => simp only [h3] at hok; exact Except.noConfusion hok
              | ok dres =>
                simp only [h3] at hok
                obtain ⟨t1, ht1⟩ := division_benef_append p c false neigh step mc temp st
                  (qTail r) dres h3
                obtain ⟨t2, ht2⟩ := cellLoop_benef_append p rest step dres.1 dres.2.1
                  dres.2.2.1 dres.2.2.2 out hok
                exact ⟨t1 ++ t2, by rw [ht2, ht1, List.append_assoc]⟩
            · rw [if_neg hq] at hok
              exact cellLoop_benef_append p rest step mc temp st (qTail r) out hok

/-- The loop `terminateLoop` never touches the beneficial list. -/
theorem terminateLoop_benef :
    ∀ (v : List Coord) (st out : SimState), terminateLoop v st = .ok out →
      out.benefitial_mutation = st.benefitial_mutation
  | [], st, out, hok => by
    rw [terminateLoop] at hok
    cases hok
    rfl
  | c :: rest, st, out, hok => by
    rw [terminateLoop] at hok
    cases h1 : terminate_cell c st with
    | error e => simp only [h1] at hok; exact Except.noConfusion hok
    | ok st1 =>
      simp only [h1] at hok
      have h2 := terminateLoop_benef rest st1 out hok
      rw [terminate_cell] at h1
      by_cases hc : c ∈ st.pool
      · rw [if_pos hc] at h1
        cases h3 : mtxSet st.mtx c 0 with
        | error e => simp only [h3] at h1; exact Except.noConfusion h1
        | ok mtx' =>
          simp only [h3] at h1
          cases h1
          exact h2
      · rw [if_neg hc] at h1
        exact Except.noConfusion h1

/-- The step `deathStep` never touches the beneficial list. -/
theorem deathStep_benef (p : CancerSimulatorParameters) (st : SimState)
    (r : PyRandom) (out : SimState × PyRandom)
    (hok : deathStep p st r = .ok out) :
    out.1.benefitial_mutation = st.benefitial_mutation := by
  rw [deathStep] at hok
  cases h1 : pySample st.pool
      ((Rat.floor (qmul p.death_probability (mkRat st.pool.length 1))).toNat) r with
  | error e => simp only [h1] at hok; exact Except.noConfusion hok
  | ok vr =>
    simp only [h1] at hok
    cases h2 : terminateLoop vr.1 st with
    | error e => simp only [h2] at hok; exact Except.noConfusion hok
    | ok st' =>
      simp only [h2] at hok
      cases hok
      exact terminateLoop_benef vr.1 st st' h2

/-- One generation only ever appends to the beneficial list. -/
theorem oneGeneration_benef_append (p : CancerSimulatorParameters)
    (step mc : Nat) (st : SimState) (r : PyRandom)
    (out : Nat × SimState × PyRandom)
    (hok : oneGeneration p step mc st r = .ok out) :
    ∃ t, out.2.1.benefitial_mutation = st.benefitial_mutation ++ t := by
  rw [oneGeneration] at hok
  cases h1 : cellLoop p (pyShuffle st.pool r).1 step mc []
      { st with pool := (pyShuffle st.pool r).1 } (pyShuffle st.pool r).2 with
  | error e => simp only [h1] at hok; exact Except.noConfusion hok
  | ok clr =>
    simp only [h1] at hok
    obtain ⟨t1, ht1⟩ := cellLoop_benef_append p _ _ _ _ _ _ _ h1
    cases h2 : deathStep p
        { mtx := clr.2.2.1.mtx, mut_container := clr.2.2.1.mut_container,
          pool := clr.2.2.1.pool ++ clr.2.1,
          benefitial_mutation := clr.2.2.1.benefitial_mutation,
          growth_plot_data := clr.2.2.1.growth_plot_data ++
            [(clr.2.2.1.pool ++ clr.2.1).length] } clr.2.2.2 with
    | error e => simp only [h2] at hok; exact Except.noConfusion hok
    | ok dsr =>
      simp only [h2] at hok
      cases hok
      have h3 := deathStep_benef p _ _ _ h2
      exact ⟨t1, by simpa [h3] using ht1⟩

/-- C4 amended.  The Beneficial-mutation set never shrinks over any number
of generations of the authoritative growth loop: its list after the loop
is the list before the loop with entries appended (and only the designated
eligibility generation can place the first entry).  Cardinality, however,
is not bounded by 1 (see the counterexample). -/
theorem C4_beneficial_list_append_only (p : CancerSimulatorParameters) :
    ∀ (k step mc : Nat) (st : SimState) (r : PyRandom)
      (out : Option (List (Nat × ℚ)) × SimState × PyRandom),
      tumourGrowthLoop p step k mc st r = .ok out →
      ∃ t, out.2.1.benefitial_mutation = st.benefitial_mutation ++ t
  | 0, step, mc, st, r, out, hok => by
    rw [tumourGrowthLoop] at hok
    cases hok
    exact ⟨[], by simp⟩
  | k + 1, step, mc, st, r, out, hok => by
    rw [tumourGrowthLoop] at hok
    cases h1 : oneGeneration p step mc st r with
    | error e => simp only [h1] at hok; exact Except.noConfusion hok
    | ok gres =>
      simp only [h1] at hok
      obtain ⟨t1, ht1⟩ := oneGeneration_benef_append p step mc st r gres h1
      by_cases hstep : step = p.number_of_generations - 1
      · rw [if_pos hstep] at hok
        cases h2 : finalReconstruct gres.2.1 gres.2.1.pool with
        | error e => simp only [h2] at hok; exact Except.noConfusion hok
        | ok recons =>
          simp only [h2] at hok
          cases h3 : bulk_seq recons with
          | error e => simp only [h3] at hok; exact Except.noConfusion hok
          | ok bv =>
            simp only [h3] at hok
            cases hok
            exact ⟨t1, ht1⟩
      · rw [if_neg hstep] at hok
        obtain ⟨t2, ht2⟩ :=
          C4_beneficial_list_append_only p k (step + 1) gres.1 gres.2.1 gres.2.2 out hok
        exact ⟨t1 ++ t2, by rw [ht2, ht1, List.append_assoc]⟩

/-- Witness for `C4_beneficial_list_append_only`: one generation of the
trace used by the counterexample extends the initially empty beneficial
list by appending. -/
theorem C4_beneficial_list_append_only_witness :
    ∃ t, stGen1.benefitial_mutation =
      (initialStateSingle 10).benefitial_mutation ++ t :=
  C4_beneficial_list_append_only Pone 1 0 1 (initialStateSingle 10) R0
    (none, stGen1, R0)
    (by
      rw [tumourGrowthLoop]
      have h0 : oneGeneration Pone 0 1 (initialStateSingle 10) R0 = .ok (3, stGen1, R0) := by
        simp +decide [oneGeneration, cellLoop, division, mutation, neighbours, freeFilter,
          neighboursList, mtxGet, mtxSet, normIdx, pyChoice, choiceIdx, qmul, qHead, qTail,
          pyShuffle, shuffleAux, lswap, deathStep, pySample, sampleAux, terminateLoop,
          terminate_cell, initialStateSingle, Pone, stGen1, R0]
      rw [h0]
      simp only []
      rw [if_neg (by decide : ¬ (0 = Pone.number_of_generations - 1))]
      rfl)

/-! ## Independence of the growth loop from the numpy stream -/

theorem qHead_setNp (f : Nat → Nat) (r : PyRandom) : qHead (setNp f r) = qHead r := rfl

theorem qTail_setNp (f : Nat → Nat) (r : PyRandom) :
    qTail (setNp f r) = setNp f (qTail r) := rfl

theorem pyChoice_setNp {α : Type} (l : List α) (f : Nat → Nat) (r : PyRandom) :
    pyChoice l (setNp f r) = (pyChoice l r).map (fun x => (x.1, setNp f x.2)) := by
  cases l <;> rfl

theorem shuffleAux_setNp {α : Type} :
    ∀ (i : Nat) (l : List α) (f : Nat → Nat) (r : PyRandom),
      shuffleAux l i (setNp f r) =
        ((shuffleAux l i r).1, setNp f (shuffleAux l i r).2)
  | 0, l, f, r => rfl
  | k + 1, l, f, r => by
    rw [shuffleAux, qHead_setNp, qTail_setNp, shuffleAux_setNp k]
    rfl

theorem pyShuffle_setNp {α : Type} (l : List α) (f : Nat → Nat) (r : PyRandom) :
    pyShuffle l (setNp f r) = ((pyShuffle l r).1, setNp f (pyShuffle l r).2) := by
  rw [pyShuffle, pyShuffle, shuffleAux_setNp]

theorem sampleAux_setNp {α : Type} :
    ∀ (k : Nat) (l : List α) (f : Nat → Nat) (r : PyRandom),
      sampleAux l k (setNp f r) =
        ((sampleAux l k r).1, setNp f (sampleAux l k r).2)
  | 0, l, f, r => rfl
  | k + 1, [], f, r => rfl
  | k + 1, a :: t, f, r => by
    rw [sampleAux, qHead_setNp, qTail_setNp, sampleAux_setNp k]
    rfl

theorem pySample_setNp {α : Type} (l : List α) (k : Nat) (f : Nat → Nat)
    (r : PyRandom) :
    pySample l k (setNp f r) =
      (pySample l k r).map (fun x => (x.1, setNp f x.2)) := by
  rw [pySample, pySample]
  split
  · rfl
  · rw [sampleAux_setNp]
    rfl

theorem mutation_setNp (p : CancerSimulatorParameters) (cell place : Coord)
    (step mc : Nat) (b : Bool) (st : SimState) (f : Nat → Nat) (r : PyRandom) :
    mutation p cell step mc place b st (setNp f r) =
      (mutation p cell step mc place b st r).map
        (fun x => (x.1, x.2.1, setNp f x.2.2)) := by
  simp only [mutation, qHead_setNp, qTail_setNp]
  repeat' split
  all_goals simp_all [Except.map]

theorem division_setNp (p : CancerSimulatorParameters) (cell : Coord)
    (b : Bool) (neighbors : List Coord) (step mc : Nat) (temp : List Coord)
    (st : SimState) (f : Nat → Nat) (r : PyRandom) :
    division p cell b neighbors step mc temp st (setNp f r) =
      (division p cell b neighbors step mc temp st r).map
        (fun x => (x.1, x.2.1, x.2.2.1, setNp f x.2.2.2)) := by
  rw [division, division, pyChoice_setNp]
  cases h1 : pyChoice neighbors r with
  | error e => rfl
  | ok pr =>
    simp only [Except.map, mutation_setNp]
    cases h2 : mutation p cell step mc pr.1 b st pr.2 with
    | error e => rfl
    | ok msr => rfl

theorem cellLoop_setNp (p : CancerSimulatorParameters) :
    ∀ (cells : List Coord) (step mc : Nat) (temp : List Coord) (st : SimState)
      (f : Nat → Nat) (r : PyRandom),
      cellLoop p cells step mc temp st (setNp f r) =
        (cellLoop p cells step mc temp st r).map
          (fun x => (x.1, x.2.1, x.2.2.1, setNp f x.2.2.2))
  | [], step, mc, temp, st, f, r => rfl
  | c :: rest, step, mc, temp, st, f, r => by
    rw [cellLoop, cellLoop]
    cases h1 : neighbours st.mtx c with
    | error e => rfl
    | ok neigh =>
      simp only []
      by_cases hne : neigh = []
      · rw [if_pos hne, if_pos hne, cellLoop_setNp p rest]
      · rw [if_neg hne, if_neg hne]
        cases h2 : mtxGet st.mtx c with
        | error e => rfl
        | ok cid =>
          simp only [qHead_setNp, qTail_setNp]
          by_cases hmem : cid ∈ st.benefitial_mutation
          · rw [if_pos hmem, if_pos hmem]
            by_cases hq : qHead r < p.advantageous_division_probability
            · rw [if_pos hq, if_pos hq, division_setNp]
              cases h3 : division p c true neigh step mc temp st (qTail r) with
              | error e => rfl
              | ok dres =>
                simp only [Except.map]
                exact cellLoop_setNp p rest step dres.1 dres.2.1 dres.2.2.1 f dres.2.2.2
            · rw [if_neg hq, if_neg hq]
              exact cellLoop_setNp p rest step mc temp st f (qTail r)
          · rw [if_neg hmem, if_neg hmem]
            by_cases hq : qHead r < p.division_probability
            · rw [if_pos hq, if_pos hq, division_setNp]
              cases h3 : division p c false neigh step mc temp st (qTail r) with
              | error e => rfl
              | ok dres =>
                simp only [Except.map]
                exact cellLoop_setNp p rest step dres.1 dres.2.1 dres.2.2.1 f dres.2.2.2
            · rw [if_neg hq, if_neg hq]
              exact cellLoop_setNp p rest step mc temp st f (qTail r)

theorem deathStep_setNp (p : CancerSimulatorParameters) (st : SimState)
    (f : Nat → Nat) (r : PyRandom) :
    deathStep p st (setNp f r) =
      (deathStep p st r).map (fun x => (x.1, setNp f x.2)) := by
  rw [deathStep, deathStep, pySample_setNp]
  cases h1 : pySample st.pool
      ((Rat.floor (qmul p.death_probability (mkRat st.pool.length 1))).toNat) r with
  | error e => rfl
  | ok vr =>
    simp only [Except.map]
    cases h2 : terminateLoop vr.1 st with
    | error e => rfl
    | ok st' => rfl

theorem oneGeneration_setNp (p : CancerSimulatorParameters) (step mc : Nat)
    (st : SimState) (f : Nat → Nat) (r : PyRandom) :
    oneGeneration p step mc st (setNp f r) =
      (oneGeneration p step mc st r).map (fun x => (x.1, x.2.1, setNp f x.2.2)) := by
  rw [oneGeneration, oneGeneration, pyShuffle_setNp]
  simp only [cellLoop_setNp]
  cases h1 : cellLoop p (pyShuffle st.pool r).1 step mc []
      { st with pool := (pyShuffle st.pool r).1 } (pyShuffle st.pool r).2 with
  | error e => rfl
  | ok clr =>
    simp only [Except.map, deathStep_setNp]
    cases h2 : deathStep p
        { mtx := clr.2.2.1.mtx, mut_container := clr.2.2.1.mut_container,
          pool := clr.2.2.1.pool ++ clr.2.1,
          benefitial_mutation := clr.2.2.1.benefitial_mutation,
          growth_plot_data := clr.2.2.1.growth_plot_data ++
            [(clr.2.2.1.pool ++ clr.2.1).length] } clr.2.2.2 with
    | error e => rfl
    | ok dsr => rfl

/-- The scaling step `increase_mut_number` never consumes the `random`-module (seeded)
stream: the `q` component passes through untouched — its randomness comes
entirely from the numpy stream. -/
theorem increase_mut_number_q (p : CancerSimulatorParameters) :
    ∀ (l : List (Nat × Nat)) (r : PyRandom),
      (increase_mut_number p l r).2.q = r.q
  | [], r => rfl
  | (i, c) :: rest, r => by
    rw [increase_mut_number]
    by_cases hi : i = 1
    · rw [if_pos hi]
      exact increase_mut_number_q p rest r
    · rw [if_neg hi]
      exact increase_mut_number_q p rest (npTail r)

/-- C2 amended.  The growth loop (shuffles, division gates, neighbour
choices, mutation and advantageous draws, death sampling) consumes only
the seeded `random`-module stream, so the Spatial Grid, Lineage Ledger
and the whole simulation state after any number of generations are
bit-identical across two runs with the same seed regardless of the
ambient numpy stream; and the multiplicity-scaling step never consumes
the seeded stream (its Poisson multiplicities come from the unseeded
numpy generator — so the *scaled* VAF spectrum is not covered, see the
counterexample). -/
theorem C2_growth_state_independent_of_numpy_stream :
    (∀ (p : CancerSimulatorParameters) (step k mc : Nat) (st : SimState)
       (q : Nat → ℚ) (np1 np2 : Nat → Nat),
       stateView (tumourGrowthLoop p step k mc st ⟨q, np1⟩) =
         stateView (tumourGrowthLoop p step k mc st ⟨q, np2⟩)) ∧
    (∀ (p : CancerSimulatorParameters) (l : List (Nat × Nat)) (r : PyRandom),
       (increase_mut_number p l r).2.q = r.q) := by
  constructor
  · intro p step k
    induction k generalizing step with
    | zero => intro mc st q np1 np2; rfl
    | succ k ihk =>
      intro mc st q np1 np2
      rw [tumourGrowthLoop, tumourGrowthLoop]
      have hgen := oneGeneration_setNp p step mc st np1 ⟨q, np2⟩
      rw [show setNp np1 (⟨q, np2⟩ : PyRandom) = ⟨q, np1⟩ from rfl] at hgen
      rw [hgen]
      cases h1 : oneGeneration p step mc st ⟨q, np2⟩ with
      | error e => rfl
      | ok gres =>
        simp only [Except.map]
        by_cases hstep : step = p.number_of_generations - 1
        · rw [if_pos hstep, if_pos hstep]
          cases h2 : finalReconstruct gres.2.1 gres.2.1.pool with
          | error e => rfl
          | ok recons =>
            simp only []
            cases h3 : bulk_seq recons with
            | error e => rfl
            | ok bv =>
              simp only [stateView, Except.map]
              have hq1 := increase_mut_number_q p bv (setNp np1 gres.2.2)
              have hq2 := increase_mut_number_q p bv gres.2.2
              rw [hq1, hq2]
              rfl
        · rw [if_neg hstep, if_neg hstep]
          exact ihk (step + 1) gres.1 gres.2.1 gres.2.2.q np1 gres.2.2.np
  · intro p l r
    exact increase_mut_number_q p l r

/-- Witness for `C7_death_step_uniform_neutral_probability_only`: with
neutral death probability 1 on a two-cell pool, the death step of
`PkillAdv` (advantageous death probability 1) coincides with that of
`Pkill` (advantageous death probability 0), and `floor(1·2) = 2` cells
are removed. -/
theorem C7_death_step_uniform_neutral_probability_only_witness :
    Pkill.death_probability = PkillAdv.death_probability ∧
    stPool2.pool.Nodup ∧
    (deathStep PkillAdv stPool2 R0 = deathStep Pkill stPool2 R0 ∧
     ((stPool2Dead, R0) : SimState × PyRandom).1.pool.length =
       stPool2.pool.length -
         (Rat.floor (qmul Pkill.death_probability (mkRat stPool2.pool.length 1))).toNat) :=
  ⟨by decide, by decide,
   C7_death_step_uniform_neutral_probability_only Pkill PkillAdv stPool2 R0
     (stPool2Dead, R0) (by decide) (by decide) rfl⟩

/-- Witness for `C10_mother_loses_advantage`: the beneficial mother at
`(5,5)` (clone-id 1) divides into `(4,6)` with a successful mutation
draw; only the daughter id 2 joins the beneficial list and the mother's
new id 3 does not. -/
theorem C10_mother_loses_advantage_witness :
    qHead R0 < Pone.mutation_rate ∧
    (∀ b ∈ stMother.benefitial_mutation, b ≤ stMother.mut_container.length) ∧
    (((3, stMotherAfter, R0) : Nat × SimState × PyRandom)).2.1.benefitial_mutation =
      stMother.benefitial_mutation ++ [stMother.mut_container.length] ∧
    mtxGet (((3, stMotherAfter, R0) : Nat × SimState × PyRandom)).2.1.mtx
        ((5 : Int), (5 : Int)) = .ok (stMother.mut_container.length + 1) ∧
    stMother.mut_container.length + 1 ∉
      (((3, stMotherAfter, R0) : Nat × SimState × PyRandom)).2.1.benefitial_mutation :=
  have h := C10_mother_loses_advantage Pone ((5 : Int), (5 : Int))
    ((4 : Int), (6 : Int)) 0 1 stMother R0 (3, stMotherAfter, R0)
    (by decide) (by decide) rfl
  ⟨by decide, by decide, h.1, h.2.1, h.2.2⟩

end Casim
